import Mathlib

/-!
Shallow embedding of the routing-and-orchestration core of the `t4_linux`
repository, together with theorems checking its natural-language
specification.

Part 1 embeds the `MultiLLMRouter` class from
`src/server/services/multimodalScraper.js` (model registry, request-criteria
analysis, model scoring, optimal-model selection, and performance-statistics
updates).  Part 2 embeds the `MCPProtocol` class from
`src/server/services/mcpProtocol.js` (sessions, agents, intent analysis,
routing plans, and plan execution).

JavaScript numbers are modelled as rationals (`ℚ`) where fractional
arithmetic matters and as naturals (`ℕ`) for counters; JavaScript `Map`s are
modelled as association lists in insertion order (JS `Map` iteration order is
insertion order); the stable `Array.prototype.sort` is modelled by a stable
insertion sort; thrown errors are modelled with `Except`.
-/

namespace T4

/-! ### Generic association-list helpers (model of JS `Map.get` / keyed update) -/

def lookupA {α : Type} : List (String × α) → String → Option α
  | [], _ => none
  | (k, v) :: rest, key => if k = key then some v else lookupA rest key

def updateA {α : Type} : List (String × α) → String → (α → α) → List (String × α)
  | [], _, _ => []
  | (k, v) :: rest, key, f =>
    if k = key then (k, f v) :: rest else (k, v) :: updateA rest key f

theorem lookupA_updateA {α : Type} (l : List (String × α)) (key key' : String) (f : α → α) :
    lookupA (updateA l key f) key'
      = if key = key' then (lookupA l key').map f else lookupA l key' := by
  induction l with
  | nil => by_cases h : key = key' <;> simp [lookupA, updateA, h]
  | cons p rest ih =>
    obtain ⟨k, v⟩ := p
    by_cases hk : k = key
    · subst hk
      by_cases hk' : k = key'
      · subst hk'
        simp [lookupA, updateA]
      · simp [lookupA, updateA, hk', ih]
    · by_cases hk' : k = key'
      · subst hk'
        have hkey : ¬ key = k := fun h => hk h.symm
        simp [lookupA, updateA, hk, hkey]
      · simp [lookupA, updateA, hk, hk', ih]

/-! ### String helpers

`toLowerCase` models `String.prototype.toLowerCase`, `includes` models
`String.prototype.includes` (substring containment), and `tokenize` models
matching a case-insensitive regular expression of the form
`/\b(w1|w2|...)\b/gi` against the text: the text is cut into maximal runs of
word characters (`[A-Za-z0-9_]`, the regex `\w` class), and a pattern of that
shape matches exactly the runs that equal one of its alternative words. -/

def toLowerCase (s : String) : String := ⟨s.data.map Char.toLower⟩

def startsWithChars : List Char → List Char → Bool
  | _, [] => true
  | [], _ :: _ => false
  | c :: cs, d :: ds => c == d && startsWithChars cs ds

def hasSubstringChars : List Char → List Char → Bool
  | l, sub =>
    startsWithChars l sub ||
      match l with
      | [] => false
      | _ :: rest => hasSubstringChars rest sub

def includes (s sub : String) : Bool := hasSubstringChars s.data sub.data

def wordChar (c : Char) : Bool := c.isAlphanum || c == '_'

def tokenizeChars : List Char → List Char → List (List Char)
  | [], cur => if cur.isEmpty then [] else [cur.reverse]
  | c :: cs, cur =>
    if wordChar c then tokenizeChars cs (c :: cur)
    else if cur.isEmpty then tokenizeChars cs [] else cur.reverse :: tokenizeChars cs []

def tokenize (s : String) : List (List Char) := tokenizeChars (toLowerCase s).data []

/-- Number of regex matches of `/\b(k1|k2|...)\b/gi` in `content`
(used for `content.match(pattern)` followed by `matches.length`). -/
def countWordMatches (content : String) (keywords : List String) : ℕ :=
  ((tokenize content).filter (fun w => keywords.any (fun k => w == k.data))).length

/-- Boolean regex test `pattern.test(content)` for the same pattern shape. -/
def testWordMatch (content : String) (keywords : List String) : Bool :=
  (tokenize content).any (fun w => keywords.any (fun k => w == k.data))

/-! ### Data model of `LLMModel` (src/server/models/LLMModel.js) -/

structure Performance where
  averageLatency : ℚ
  successRate : ℚ
  userSatisfaction : ℚ
  totalRequests : ℕ
  errorCount : ℕ
deriving Repr, DecidableEq

/-- Mongoose schema defaults of the `performance` subdocument. -/
def freshPerformance : Performance :=
  { averageLatency := 0
    successRate := 100
    userSatisfaction := 5
    totalRequests := 0
    errorCount := 0 }

structure Capabilities where
  maxContextLength : ℕ
deriving Repr, DecidableEq

structure LLMModel where
  name : String
  type : String
  specialization : String
  performance : Performance
  capabilities : Capabilities
deriving Repr, DecidableEq

structure Preferences where
  preferredLLM : String
deriving Repr, DecidableEq

structure UserProfile where
  preferences : Preferences
deriving Repr, DecidableEq

/-- Model of `this.llmModels` (insertion-ordered `Map` of registered models) together
with `this.loadBalancer` (per-model in-flight counters). -/
structure RouterState where
  llmModels : List LLMModel
  loadBalancer : List (String × ℕ)
deriving Repr, DecidableEq

/-- The `context` argument of `routeRequest`/`analyzeRequestCriteria`
(only its `urgency` field is read). -/
structure ReqContext where
  urgency : Option String
deriving Repr, DecidableEq

/-! ### Request-criteria analysis (`analyzeRequestCriteria` and helpers) -/

def assessComplexity (content : String) : String :=
  let complexityScore :=
    countWordMatches content ["analyze", "compare", "evaluate", "synthesize", "integrate"]
    + countWordMatches content ["algorithm", "equation", "formula", "theorem"]
    + countWordMatches content ["hypothesis", "methodology", "framework"]
  if complexityScore > 5 then "high"
  else if complexityScore > 2 then "medium"
  else "low"

def identifyDomain (content : String) : String :=
  if testWordMatch content
      ["engineering", "mechanical", "electrical", "civil", "software", "design", "circuit", "system"] then
    "engineering"
  else if testWordMatch content
      ["math", "calculus", "algebra", "geometry", "statistics", "equation", "theorem"] then
    "mathematics"
  else if testWordMatch content
      ["physics", "chemistry", "biology", "research", "experiment", "hypothesis"] then
    "science"
  else if testWordMatch content
      ["code", "programming", "algorithm", "function", "variable", "loop", "array"] then
    "programming"
  else if testWordMatch content
      ["business", "marketing", "finance", "management", "strategy", "revenue"] then
    "business"
  else "general"

def requiresReasoning (content : String) : Bool :=
  testWordMatch content
    ["why", "how", "analyze", "explain", "compare", "evaluate", "reason", "logic", "cause", "effect"]

def isConversational (requestType : String) : Bool :=
  ["chat", "conversation", "casual"].contains requestType

def isTechnical (content : String) : Bool :=
  testWordMatch content
    ["technical", "specification", "implementation", "architecture", "protocol", "algorithm"]

def requiresCreativity (requestType : String) : Bool :=
  ["creative", "content_generation", "story", "poem", "presentation"].contains requestType

structure RequestCriteria where
  type : String
  complexity : String
  domain : String
  requiresReasoning : Bool
  isConversational : Bool
  isTechnical : Bool
  requiresCreativity : Bool
  contentLength : ℕ
  urgency : String
deriving Repr, DecidableEq

def analyzeRequestCriteria (requestType content : String) (context : ReqContext) : RequestCriteria :=
  { type := requestType
    complexity := assessComplexity content
    domain := identifyDomain content
    requiresReasoning := requiresReasoning content
    isConversational := isConversational requestType
    isTechnical := isTechnical content
    requiresCreativity := requiresCreativity requestType
    contentLength := content.length
    urgency := context.urgency.getD "normal" }

/-! ### Model scoring (`calculateModelScore`) -/

def calculateModelScore (loadBalancer : List (String × ℕ)) (model : LLMModel)
    (criteria : RequestCriteria) (userProfile : Option UserProfile) : ℚ :=
  let score : ℚ := 0
  let score :=
    match criteria.type with
    | "chat" | "conversation" =>
        if model.specialization = "chat" then score + 50 else score
    | "reasoning" | "analysis" | "problem_solving" =>
        if model.specialization = "reasoning" then score + 50 else score
    | "technical" | "code" | "engineering" =>
        if model.specialization = "technical" then score + 50 else score
    | "creative" | "content_generation" =>
        if model.specialization = "creative" then score + 50 else score
    | "academic" | "educational" =>
        if model.specialization = "academic" then score + 50 else score
    | _ => score
  let score := score + (100 - model.performance.averageLatency / 10)
  let score := score + model.performance.successRate * 0.3
  let score := score + model.performance.userSatisfaction * 10
  let score :=
    match userProfile with
    | some up => if up.preferences.preferredLLM = model.type then score + 20 else score
    | none => score
  let currentLoad : ℕ := (lookupA loadBalancer model.name).getD 0
  let score := score - (currentLoad : ℚ) * 2
  let score :=
    if criteria.contentLength > model.capabilities.maxContextLength then score - 100 else score
  score

/-! ### Model selection (`selectOptimalModel`)

`modelScores.sort((a, b) => b.score - a.score)` is a stable sort by
descending score; `sortModelScores` is a stable insertion sort realizing the
same specification. -/

def insertByScore (x : LLMModel × ℚ) : List (LLMModel × ℚ) → List (LLMModel × ℚ)
  | [] => [x]
  | y :: ys => if x.2 ≥ y.2 then x :: y :: ys else y :: insertByScore x ys

def sortModelScores : List (LLMModel × ℚ) → List (LLMModel × ℚ)
  | [] => []
  | x :: xs => insertByScore x (sortModelScores xs)

def selectOptimalModel (st : RouterState) (requestType content : String)
    (userProfile : Option UserProfile) (context : ReqContext) : Option LLMModel :=
  let criteria := analyzeRequestCriteria requestType content context
  let modelScores :=
    st.llmModels.map (fun model => (model, calculateModelScore st.loadBalancer model criteria userProfile))
  let sorted := sortModelScores modelScores
  (sorted.head?).map Prod.fst

/-! ### Performance-statistics update (`updateModelPerformance`) -/

structure OutcomeMetrics where
  latency : ℚ
  success : Bool
  userRating : Option ℚ
deriving Repr, DecidableEq

def updateModelPerformance (performance : Performance) (metrics : OutcomeMetrics) : Performance :=
  let totalRequests := performance.totalRequests + 1
  let averageLatency :=
    (performance.averageLatency * ((totalRequests : ℚ) - 1) + metrics.latency) / (totalRequests : ℚ)
  let successRate :=
    if metrics.success then
      (performance.successRate * ((totalRequests : ℚ) - 1) + 100) / (totalRequests : ℚ)
    else
      (performance.successRate * ((totalRequests : ℚ) - 1)) / (totalRequests : ℚ)
  let errorCount := if metrics.success then performance.errorCount else performance.errorCount + 1
  let userSatisfaction :=
    match metrics.userRating with
    | some rating =>
        if rating = 0 then performance.userSatisfaction
        else (performance.userSatisfaction * ((totalRequests : ℚ) - 1) + rating) / (totalRequests : ℚ)
    | none => performance.userSatisfaction
  { averageLatency := averageLatency
    successRate := successRate
    userSatisfaction := userSatisfaction
    totalRequests := totalRequests
    errorCount := errorCount }

/-! ### Specification-side statements for the scorer -/

/-- The request-type → specialization mapping table as the specification
states it: {chat, conversation}→chat; {reasoning, analysis,
problem_solving}→reasoning; {technical, code, engineering}→technical;
{creative, content_generation}→creative; {academic, educational}→academic. -/
def requestTypeSpecialization (t : String) : Option String :=
  if t = "chat" ∨ t = "conversation" then some "chat"
  else if t = "reasoning" ∨ t = "analysis" ∨ t = "problem_solving" then some "reasoning"
  else if t = "technical" ∨ t = "code" ∨ t = "engineering" then some "technical"
  else if t = "creative" ∨ t = "content_generation" then some "creative"
  else if t = "academic" ∨ t = "educational" then some "academic"
  else none

/-- The scoring formula exactly as the specification words it: 50 for a
specialization match, plus `100 - averageLatency/10`, plus
`successRate * 0.3`, plus `userSatisfaction * 10`, plus 20 when the caller's
stored preferred model type equals the model's type, minus twice the current
load count, minus 100 when the content length exceeds the model's max
context length. -/
def specModelScore (loadBalancer : List (String × ℕ)) (model : LLMModel)
    (requestType : String) (contentLength : ℕ) (userProfile : Option UserProfile) : ℚ :=
  (if requestTypeSpecialization requestType = some model.specialization then 50 else 0)
  + (100 - model.performance.averageLatency / 10)
  + model.performance.successRate * 0.3
  + model.performance.userSatisfaction * 10
  + (match userProfile with
     | some up => if up.preferences.preferredLLM = model.type then (20 : ℚ) else 0
     | none => 0)
  - 2 * (((lookupA loadBalancer model.name).getD 0 : ℕ) : ℚ)
  - (if contentLength > model.capabilities.maxContextLength then 100 else 0)

/-- First element of the list attaining the maximal score (later elements
replace the current best only on a strictly greater score). -/
def firstBestScore : List (LLMModel × ℚ) → Option (LLMModel × ℚ)
  | [] => none
  | x :: xs =>
    match firstBestScore xs with
    | none => some x
    | some y => if y.2 > x.2 then some y else some x

theorem head?_insertByScore (x : LLMModel × ℚ) (l : List (LLMModel × ℚ)) :
    (insertByScore x l).head? =
      some (match l.head? with
            | none => x
            | some y => if x.2 ≥ y.2 then x else y) := by
  cases l with
  | nil => simp [insertByScore]
  | cons y ys =>
    by_cases h : x.2 ≥ y.2 <;> simp [insertByScore, h]

theorem head?_sortModelScores (l : List (LLMModel × ℚ)) :
    (sortModelScores l).head? = firstBestScore l := by
  induction l with
  | nil => rfl
  | cons x xs ih =>
    simp only [sortModelScores, firstBestScore, head?_insertByScore, ← ih]
    cases hs : (sortModelScores xs).head? with
    | none => simp
    | some y =>
      by_cases h : x.2 ≥ y.2
      · have hy : ¬ y.2 > x.2 := not_lt.mpr h
        simp [h, hy]
      · have hy : y.2 > x.2 := lt_of_not_ge h
        simp [h, hy]

theorem firstBestScore_eq_none_iff (l : List (LLMModel × ℚ)) :
    firstBestScore l = none ↔ l = [] := by
  cases l with
  | nil => simp [firstBestScore]
  | cons x xs =>
    simp only [firstBestScore]
    constructor
    · intro h
      cases hfb : firstBestScore xs with
      | none => simp [hfb] at h
      | some y =>
        rw [hfb] at h
        by_cases hc : y.2 > x.2 <;> simp [hc] at h
    · intro h
      exact absurd h (List.cons_ne_nil x xs)

set_option maxHeartbeats 2000000 in
theorem calculateModelScore_eq_spec (lb : List (String × ℕ)) (model : LLMModel)
    (criteria : RequestCriteria) (up : Option UserProfile) :
    calculateModelScore lb model criteria up
      = specModelScore lb model criteria.type criteria.contentLength up := by
  unfold calculateModelScore specModelScore
  split
  · rename_i heq
    rcases up with _ | u
    · by_cases hs : model.specialization = "chat" <;>
        by_cases hov : criteria.contentLength > model.capabilities.maxContextLength <;>
        simp [requestTypeSpecialization, heq, hs, hov, eq_comm] <;> (try rw [if_neg fun h => hs h.symm]) <;> ring
    · by_cases hup : u.preferences.preferredLLM = model.type <;>
        by_cases hs : model.specialization = "chat" <;>
        by_cases hov : criteria.contentLength > model.capabilities.maxContextLength <;>
        simp [requestTypeSpecialization, heq, hs, hov, hup, eq_comm] <;> (try rw [if_neg fun h => hs h.symm]) <;> ring
  · rename_i heq
    rcases up with _ | u
    · by_cases hs : model.specialization = "chat" <;>
        by_cases hov : criteria.contentLength > model.capabilities.maxContextLength <;>
        simp [requestTypeSpecialization, heq, hs, hov, eq_comm] <;> (try rw [if_neg fun h => hs h.symm]) <;> ring
    · by_cases hup : u.preferences.preferredLLM = model.type <;>
        by_cases hs : model.specialization = "chat" <;>
        by_cases hov : criteria.contentLength > model.capabilities.maxContextLength <;>
        simp [requestTypeSpecialization, heq, hs, hov, hup, eq_comm] <;> (try rw [if_neg fun h => hs h.symm]) <;> ring
  · rename_i heq
    rcases up with _ | u
    · by_cases hs : model.specialization = "reasoning" <;>
        by_cases hov : criteria.contentLength > model.capabilities.maxContextLength <;>
        simp [requestTypeSpecialization, heq, hs, hov, eq_comm] <;> (try rw [if_neg fun h => hs h.symm]) <;> ring
    · by_cases hup : u.preferences.preferredLLM = model.type <;>
        by_cases hs : model.specialization = "reasoning" <;>
        by_cases hov : criteria.contentLength > model.capabilities.maxContextLength <;>
        simp [requestTypeSpecialization, heq, hs, hov, hup, eq_comm] <;> (try rw [if_neg fun h => hs h.symm]) <;> ring
  · rename_i heq
    rcases up with _ | u
    · by_cases hs : model.specialization = "reasoning" <;>
        by_cases hov : criteria.contentLength > model.capabilities.maxContextLength <;>
        simp [requestTypeSpecialization, heq, hs, hov, eq_comm] <;> (try rw [if_neg fun h => hs h.symm]) <;> ring
    · by_cases hup : u.preferences.preferredLLM = model.type <;>
        by_cases hs : model.specialization = "reasoning" <;>
        by_cases hov : criteria.contentLength > model.capabilities.maxContextLength <;>
        simp [requestTypeSpecialization, heq, hs, hov, hup, eq_comm] <;> (try rw [if_neg fun h => hs h.symm]) <;> ring
  · rename_i heq
    rcases up with _ | u
    · by_cases hs : model.specialization = "reasoning" <;>
        by_cases hov : criteria.contentLength > model.capabilities.maxContextLength <;>
        simp [requestTypeSpecialization, heq, hs, hov, eq_comm] <;> (try rw [if_neg fun h => hs h.symm]) <;> ring
    · by_cases hup : u.preferences.preferredLLM = model.type <;>
        by_cases hs : model.specialization = "reasoning" <;>
        by_cases hov : criteria.contentLength > model.capabilities.maxContextLength <;>
        simp [requestTypeSpecialization, heq, hs, hov, hup, eq_comm] <;> (try rw [if_neg fun h => hs h.symm]) <;> ring
  · rename_i heq
    rcases up with _ | u
    · by_cases hs : model.specialization = "technical" <;>
        by_cases hov : criteria.contentLength > model.capabilities.maxContextLength <;>
        simp [requestTypeSpecialization, heq, hs, hov, eq_comm] <;> (try rw [if_neg fun h => hs h.symm]) <;> ring
    · by_cases hup : u.preferences.preferredLLM = model.type <;>
        by_cases hs : model.specialization = "technical" <;>
        by_cases hov : criteria.contentLength > model.capabilities.maxContextLength <;>
        simp [requestTypeSpecialization, heq, hs, hov, hup, eq_comm] <;> (try rw [if_neg fun h => hs h.symm]) <;> ring
  · rename_i heq
    rcases up with _ | u
    · by_cases hs : model.specialization = "technical" <;>
        by_cases hov : criteria.contentLength > model.capabilities.maxContextLength <;>
        simp [requestTypeSpecialization, heq, hs, hov, eq_comm] <;> (try rw [if_neg fun h => hs h.symm]) <;> ring
    · by_cases hup : u.preferences.preferredLLM = model.type <;>
        by_cases hs : model.specialization = "technical" <;>
        by_cases hov : criteria.contentLength > model.capabilities.maxContextLength <;>
        simp [requestTypeSpecialization, heq, hs, hov, hup, eq_comm] <;> (try rw [if_neg fun h => hs h.symm]) <;> ring
  · rename_i heq
    rcases up with _ | u
    · by_cases hs : model.specialization = "technical" <;>
        by_cases hov : criteria.contentLength > model.capabilities.maxContextLength <;>
        simp [requestTypeSpecialization, heq, hs, hov, eq_comm] <;> (try rw [if_neg fun h => hs h.symm]) <;> ring
    · by_cases hup : u.preferences.preferredLLM = model.type <;>
        by_cases hs : model.specialization = "technical" <;>
        by_cases hov : criteria.contentLength > model.capabilities.maxContextLength <;>
        simp [requestTypeSpecialization, heq, hs, hov, hup, eq_comm] <;> (try rw [if_neg fun h => hs h.symm]) <;> ring
  · rename_i heq
    rcases up with _ | u
    · by_cases hs : model.specialization = "creative" <;>
        by_cases hov : criteria.contentLength > model.capabilities.maxContextLength <;>
        simp [requestTypeSpecialization, heq, hs, hov, eq_comm] <;> (try rw [if_neg fun h => hs h.symm]) <;> ring
    · by_cases hup : u.preferences.preferredLLM = model.type <;>
        by_cases hs : model.specialization = "creative" <;>
        by_cases hov : criteria.contentLength > model.capabilities.maxContextLength <;>
        simp [requestTypeSpecialization, heq, hs, hov, hup, eq_comm] <;> (try rw [if_neg fun h => hs h.symm]) <;> ring
  · rename_i heq
    rcases up with _ | u
    · by_cases hs : model.specialization = "creative" <;>
        by_cases hov : criteria.contentLength > model.capabilities.maxContextLength <;>
        simp [requestTypeSpecialization, heq, hs, hov, eq_comm] <;> (try rw [if_neg fun h => hs h.symm]) <;> ring
    · by_cases hup : u.preferences.preferredLLM = model.type <;>
        by_cases hs : model.specialization = "creative" <;>
        by_cases hov : criteria.contentLength > model.capabilities.maxContextLength <;>
        simp [requestTypeSpecialization, heq, hs, hov, hup, eq_comm] <;> (try rw [if_neg fun h => hs h.symm]) <;> ring
  · rename_i heq
    rcases up with _ | u
    · by_cases hs : model.specialization = "academic" <;>
        by_cases hov : criteria.contentLength > model.capabilities.maxContextLength <;>
        simp [requestTypeSpecialization, heq, hs, hov, eq_comm] <;> (try rw [if_neg fun h => hs h.symm]) <;> ring
    · by_cases hup : u.preferences.preferredLLM = model.type <;>
        by_cases hs : model.specialization = "academic" <;>
        by_cases hov : criteria.contentLength > model.capabilities.maxContextLength <;>
        simp [requestTypeSpecialization, heq, hs, hov, hup, eq_comm] <;> (try rw [if_neg fun h => hs h.symm]) <;> ring
  · rename_i heq
    rcases up with _ | u
    · by_cases hs : model.specialization = "academic" <;>
        by_cases hov : criteria.contentLength > model.capabilities.maxContextLength <;>
        simp [requestTypeSpecialization, heq, hs, hov, eq_comm] <;> (try rw [if_neg fun h => hs h.symm]) <;> ring
    · by_cases hup : u.preferences.preferredLLM = model.type <;>
        by_cases hs : model.specialization = "academic" <;>
        by_cases hov : criteria.contentLength > model.capabilities.maxContextLength <;>
        simp [requestTypeSpecialization, heq, hs, hov, hup, eq_comm] <;> (try rw [if_neg fun h => hs h.symm]) <;> ring
  · rename_i hc1 hc2 h1 h2 h3 h4 h5 h6 h7 h8 h9 h10
    have n1 : ¬ criteria.type = "chat" := hc1
    have n2 : ¬ criteria.type = "conversation" := hc2
    have n3 : ¬ criteria.type = "reasoning" := h1
    have n4 : ¬ criteria.type = "analysis" := h2
    have n5 : ¬ criteria.type = "problem_solving" := h3
    have n6 : ¬ criteria.type = "technical" := h4
    have n7 : ¬ criteria.type = "code" := h5
    have n8 : ¬ criteria.type = "engineering" := h6
    have n9 : ¬ criteria.type = "creative" := h7
    have n10 : ¬ criteria.type = "content_generation" := h8
    have n11 : ¬ criteria.type = "academic" := h9
    have n12 : ¬ criteria.type = "educational" := h10
    rcases up with _ | u
    · by_cases hov : criteria.contentLength > model.capabilities.maxContextLength <;>
        simp [requestTypeSpecialization, n1, n2, n3, n4, n5, n6, n7, n8, n9, n10, n11, n12, hov] <;> ring
    · by_cases hup : u.preferences.preferredLLM = model.type <;>
        by_cases hov : criteria.contentLength > model.capabilities.maxContextLength <;>
        simp [requestTypeSpecialization, n1, n2, n3, n4, n5, n6, n7, n8, n9, n10, n11, n12, hov, hup] <;> ring

theorem selectOptimalModel_eq_none_iff (st : RouterState) (requestType content : String)
    (userProfile : Option UserProfile) (context : ReqContext) :
    selectOptimalModel st requestType content userProfile context = none ↔ st.llmModels = [] := by
  unfold selectOptimalModel
  simp only [head?_sortModelScores, Option.map_eq_none', firstBestScore_eq_none_iff,
    List.map_eq_nil_iff]

/-- C1: for every candidate model the scorer computes the score as the
specification's formula (specialization-match bonus per the request-type
mapping table, latency, success-rate, satisfaction, stored-preference bonus,
load penalty, oversize penalty), and selection returns the model with the
highest score, ties broken by first-encountered registry iteration order. -/
theorem score_formula_and_first_encountered_max
    (st : RouterState) (requestType content : String)
    (userProfile : Option UserProfile) (context : ReqContext) :
    (∀ model : LLMModel,
        calculateModelScore st.loadBalancer model
            (analyzeRequestCriteria requestType content context) userProfile
          = specModelScore st.loadBalancer model requestType content.length userProfile)
    ∧ selectOptimalModel st requestType content userProfile context
        = (firstBestScore (st.llmModels.map
            (fun m => (m, specModelScore st.loadBalancer m requestType content.length userProfile)))).map
              Prod.fst := by
  have hform : ∀ model : LLMModel,
      calculateModelScore st.loadBalancer model
          (analyzeRequestCriteria requestType content context) userProfile
        = specModelScore st.loadBalancer model requestType content.length userProfile :=
    fun model =>
      calculateModelScore_eq_spec st.loadBalancer model
        (analyzeRequestCriteria requestType content context) userProfile
  refine ⟨hform, ?_⟩
  have hmap : st.llmModels.map
        (fun model => (model, calculateModelScore st.loadBalancer model
            (analyzeRequestCriteria requestType content context) userProfile))
      = st.llmModels.map
        (fun m => (m, specModelScore st.loadBalancer m requestType content.length userProfile)) :=
    List.map_congr_left (fun m _ => by rw [hform m])
  unfold selectOptimalModel
  simp only [hmap, head?_sortModelScores]

/-- C10: model selection depends on the message content only through its
length — for a fixed request type, user profile, registry state, and load
counters, two contents of equal length give every model an identical score
and produce the same selected model. -/
theorem selection_depends_on_content_only_via_length
    (requestType s1 s2 : String) (context : ReqContext)
    (userProfile : Option UserProfile) (st : RouterState)
    (h : s1.length = s2.length) :
    (∀ (lb : List (String × ℕ)) (model : LLMModel),
        calculateModelScore lb model (analyzeRequestCriteria requestType s1 context) userProfile
          = calculateModelScore lb model (analyzeRequestCriteria requestType s2 context) userProfile)
    ∧ selectOptimalModel st requestType s1 userProfile context
        = selectOptimalModel st requestType s2 userProfile context := by
  have hscore : ∀ (lb : List (String × ℕ)) (model : LLMModel),
      calculateModelScore lb model (analyzeRequestCriteria requestType s1 context) userProfile
        = calculateModelScore lb model (analyzeRequestCriteria requestType s2 context) userProfile := by
    intro lb model
    rw [calculateModelScore_eq_spec, calculateModelScore_eq_spec]
    show specModelScore lb model requestType s1.length userProfile
        = specModelScore lb model requestType s2.length userProfile
    rw [h]
  refine ⟨hscore, ?_⟩
  have hmap : st.llmModels.map
        (fun model => (model, calculateModelScore st.loadBalancer model
            (analyzeRequestCriteria requestType s1 context) userProfile))
      = st.llmModels.map
        (fun model => (model, calculateModelScore st.loadBalancer model
            (analyzeRequestCriteria requestType s2 context) userProfile)) :=
    List.map_congr_left (fun m _ => by rw [hscore st.loadBalancer m])
  unfold selectOptimalModel
  simp only [hmap]

/-- A registered model used by concrete evaluations below; its max context
length (2) is shorter than the four-character content `"abcd"`. -/
def tinyContextModel : LLMModel :=
  { name := "tiny"
    type := "gemini"
    specialization := "chat"
    performance := freshPerformance
    capabilities := { maxContextLength := 2 } }

def tinyRouter : RouterState :=
  { llmModels := [tinyContextModel], loadBalancer := [] }

/-- C3 counterexample: with a single registered model whose max context
length (2) is below the content length (4), `selectOptimalModel` still
returns that model instead of reporting that no model was found. -/
theorem oversize_content_still_selected_cex :
    (∀ m ∈ tinyRouter.llmModels,
        ("abcd" : String).length > m.capabilities.maxContextLength)
    ∧ selectOptimalModel tinyRouter "chat" "abcd" none ⟨none⟩ ≠ none := by
  constructor
  · decide
  · decide

/-- C3 amended: the oversize condition is only a score penalty, never an
exception, and selection returns `none` (ModelNotFound) exactly when the
registry is empty — in particular a request whose content is longer than
every registered model's max context length still gets the highest-scoring
model when any model is registered. -/
theorem oversize_penalty_and_notfound_iff_empty
    (st : RouterState) (requestType content : String)
    (userProfile : Option UserProfile) (context : ReqContext)
    (hover : ∀ m ∈ st.llmModels, content.length > m.capabilities.maxContextLength) :
    selectOptimalModel st requestType content userProfile context = none ↔ st.llmModels = [] :=
  selectOptimalModel_eq_none_iff st requestType content userProfile context

theorem oversize_penalty_and_notfound_iff_empty_witness :
    (∀ m ∈ tinyRouter.llmModels,
        ("abcd" : String).length > m.capabilities.maxContextLength)
    ∧ ¬ (selectOptimalModel tinyRouter "chat" "abcd" none ⟨none⟩ = none) :=
  ⟨by decide,
    fun hnone =>
      (by decide : tinyRouter.llmModels ≠ []) <|
        (oversize_penalty_and_notfound_iff_empty tinyRouter "chat" "abcd" none ⟨none⟩
          (by decide)).mp hnone⟩

theorem selection_depends_on_content_only_via_length_witness :
    (("why" : String).length = ("abc" : String).length)
    ∧ selectOptimalModel tinyRouter "chat" "why" none ⟨none⟩
        = selectOptimalModel tinyRouter "chat" "abc" none ⟨none⟩ :=
  ⟨by decide,
    (selection_depends_on_content_only_via_length "chat" "why" "abc" ⟨none⟩ none tinyRouter
      (by decide)).2⟩

/-! ### Running-mean behaviour of `updateModelPerformance` -/

theorem foldl_updateModelPerformance_stats (ms : List OutcomeMetrics) (p : Performance) :
    (ms.foldl updateModelPerformance p).totalRequests = p.totalRequests + ms.length
    ∧ (ms.foldl updateModelPerformance p).averageLatency
          * ((p.totalRequests : ℚ) + (ms.length : ℚ))
        = p.averageLatency * (p.totalRequests : ℚ) + (ms.map OutcomeMetrics.latency).sum := by
  induction ms generalizing p with
  | nil => simp
  | cons m rest ih =>
    obtain ⟨iht, ihl⟩ := ih (updateModelPerformance p m)
    have htot : (updateModelPerformance p m).totalRequests = p.totalRequests + 1 := rfl
    have hne : ((p.totalRequests : ℚ) + 1) ≠ 0 := by positivity
    have havgmul : (updateModelPerformance p m).averageLatency * ((p.totalRequests : ℚ) + 1)
        = p.averageLatency * (p.totalRequests : ℚ) + m.latency := by
      show ((p.averageLatency * (((p.totalRequests + 1 : ℕ) : ℚ) - 1) + m.latency)
            / ((p.totalRequests + 1 : ℕ) : ℚ)) * ((p.totalRequests : ℚ) + 1)
          = p.averageLatency * (p.totalRequests : ℚ) + m.latency
      push_cast
      field_simp
    constructor
    · rw [List.foldl_cons, iht, htot]
      simp [List.length_cons]
      omega
    · rw [List.foldl_cons]
      rw [htot] at ihl
      simp only [List.length_cons, List.map_cons, List.sum_cons]
      push_cast at ihl ⊢
      rw [havgmul] at ihl
      linear_combination ihl

/-- C2: starting from a fresh stats record, after a sequence of N
`recordOutcome` calls `totalRequests` equals N and `averageLatency` is the
arithmetic mean of the N recorded latencies; each call updates the running
mean by `newMean = (oldMean * (n-1) + sample) / n` with `n` the
post-increment total request count, and a failed call increments
`errorCount` and contributes a success sample of 0 rather than 100 to
`successRate`. -/
theorem recordOutcome_running_means (ms : List OutcomeMetrics) (p : Performance) (m : OutcomeMetrics) :
    ((ms.foldl updateModelPerformance freshPerformance).totalRequests = ms.length)
    ∧ (ms ≠ [] → (ms.foldl updateModelPerformance freshPerformance).averageLatency
        = (ms.map OutcomeMetrics.latency).sum / (ms.length : ℚ))
    ∧ ((updateModelPerformance p m).totalRequests = p.totalRequests + 1)
    ∧ ((updateModelPerformance p m).averageLatency
        = (p.averageLatency * (((updateModelPerformance p m).totalRequests : ℚ) - 1) + m.latency)
            / ((updateModelPerformance p m).totalRequests : ℚ))
    ∧ (m.success = false →
        (updateModelPerformance p m).errorCount = p.errorCount + 1
        ∧ (updateModelPerformance p m).successRate
            = (p.successRate * (((updateModelPerformance p m).totalRequests : ℚ) - 1) + 0)
                / ((updateModelPerformance p m).totalRequests : ℚ))
    ∧ (m.success = true →
        (updateModelPerformance p m).successRate
            = (p.successRate * (((updateModelPerformance p m).totalRequests : ℚ) - 1) + 100)
                / ((updateModelPerformance p m).totalRequests : ℚ)) := by
  obtain ⟨htot, hlat⟩ := foldl_updateModelPerformance_stats ms freshPerformance
  refine ⟨?_, ?_, rfl, rfl, ?_, ?_⟩
  · simpa [freshPerformance] using htot
  · intro hne
    have hlen : (ms.length : ℚ) ≠ 0 := by
      have : ms.length ≠ 0 := fun h => hne (List.length_eq_zero.mp h)
      exact_mod_cast this
    have := hlat
    simp only [freshPerformance] at this
    rw [eq_div_iff hlen]
    simpa using this
  · intro hfail
    refine ⟨?_, ?_⟩
    · show (if m.success then p.errorCount else p.errorCount + 1) = p.errorCount + 1
      rw [hfail]
      simp
    · show (if m.success then
          (p.successRate * (((p.totalRequests + 1 : ℕ) : ℚ) - 1) + 100) / ((p.totalRequests + 1 : ℕ) : ℚ)
        else
          (p.successRate * (((p.totalRequests + 1 : ℕ) : ℚ) - 1)) / ((p.totalRequests + 1 : ℕ) : ℚ))
          = (p.successRate * (((p.totalRequests + 1 : ℕ) : ℚ) - 1) + 0)
              / ((p.totalRequests + 1 : ℕ) : ℚ)
      rw [hfail]
      simp
  · intro hsucc
    show (if m.success then
        (p.successRate * (((p.totalRequests + 1 : ℕ) : ℚ) - 1) + 100) / ((p.totalRequests + 1 : ℕ) : ℚ)
      else
        (p.successRate * (((p.totalRequests + 1 : ℕ) : ℚ) - 1)) / ((p.totalRequests + 1 : ℕ) : ℚ))
        = (p.successRate * (((p.totalRequests + 1 : ℕ) : ℚ) - 1) + 100)
            / ((p.totalRequests + 1 : ℕ) : ℚ)
    rw [hsucc]
    simp

theorem recordOutcome_running_means_witness :
    (([⟨4, true, none⟩, ⟨10, false, none⟩] : List OutcomeMetrics) ≠ []
      ∧ (⟨10, false, none⟩ : OutcomeMetrics).success = false)
    ∧ (([⟨4, true, none⟩, ⟨10, false, none⟩] : List OutcomeMetrics).foldl
            updateModelPerformance freshPerformance).totalRequests = 2
    ∧ (([⟨4, true, none⟩, ⟨10, false, none⟩] : List OutcomeMetrics).foldl
            updateModelPerformance freshPerformance).averageLatency
        = (([⟨4, true, none⟩, ⟨10, false, none⟩] : List OutcomeMetrics).map
            OutcomeMetrics.latency).sum / 2 := by
  have h := recordOutcome_running_means [⟨4, true, none⟩, ⟨10, false, none⟩]
    freshPerformance ⟨10, false, none⟩
  refine ⟨⟨by decide, rfl⟩, h.1, ?_⟩
  have h2 := h.2.1 (by decide)
  simpa using h2

/-! ### Part 2: data model of `MCPProtocol` (src/server/services/mcpProtocol.js)

Timestamps and UUIDs are incidental to every property below; UUIDs are
modelled by a monotone counter in the protocol state (`nextId`), which keeps
their uniqueness, and timestamp fields are omitted. -/

structure MCPMessage where
  content : String
  sender : String
  type : String
deriving Repr, DecidableEq

structure ActionResult where
  action : String
  agentId : String
  instanceId : String
  data : String
deriving Repr, DecidableEq

structure AgentInstance where
  instanceId : String
  agentId : String
  sessionId : String
  state : String
  availableTools : List String
  executionHistory : List ActionResult
deriving Repr, DecidableEq

structure AgentDefinition where
  name : String
  description : String
  capabilities : List String
  tools : List String
deriving Repr, DecidableEq

/-- A session together with the parts of its `context` that the protocol
reads (`agentContexts`); `config` is flattened to the two limits used. -/
structure Session where
  sessionId : String
  userId : String
  maxAgents : ℕ
  maxTools : ℕ
  activeAgents : List String
  agentContexts : List (String × AgentInstance)
  messageHistory : List MCPMessage
  isActive : Bool
deriving Repr, DecidableEq

/-- Model of `this.sessions`, `this.agents`, `this.contexts` and the UUID counter. -/
structure MCPState where
  sessions : List (String × Session)
  agents : List (String × AgentDefinition)
  contexts : List String
  nextId : ℕ
deriving Repr, DecidableEq

/-- Error values thrown by the protocol (messages follow the source). -/
inductive MCPError where
  | invalidOrInactiveSession
  | agentNotFound (agentId : String)
  | maxAgentsReached
  | executionFailed (msg : String)
deriving Repr, DecidableEq

/-! ### Session and agent lifecycle -/

def createSession (st : MCPState) (userId : String) (maxAgents maxTools : ℕ) :
    MCPState × String :=
  let sessionId := "session-" ++ toString st.nextId
  let session : Session :=
    { sessionId := sessionId
      userId := userId
      maxAgents := maxAgents
      maxTools := maxTools
      activeAgents := []
      agentContexts := []
      messageHistory := []
      isActive := true }
  ({ st with
      sessions := st.sessions ++ [(sessionId, session)]
      contexts := st.contexts ++ [sessionId]
      nextId := st.nextId + 1 },
    sessionId)

def registerAgent (st : MCPState) (agentId : String) (agentDefinition : AgentDefinition) :
    MCPState :=
  { st with agents := st.agents ++ [(agentId, agentDefinition)] }

def spawnAgent (st : MCPState) (sessionId agentId : String) :
    MCPState × Except MCPError String :=
  match lookupA st.sessions sessionId with
  | none => (st, .error .invalidOrInactiveSession)
  | some session =>
    if session.isActive = false then (st, .error .invalidOrInactiveSession)
    else
      match lookupA st.agents agentId with
      | none => (st, .error (.agentNotFound agentId))
      | some agentDefinition =>
        if session.activeAgents.length ≥ session.maxAgents then
          (st, .error .maxAgentsReached)
        else
          let agentInstanceId := agentId ++ "-" ++ toString st.nextId
          let agentInstance : AgentInstance :=
            { instanceId := agentInstanceId
              agentId := agentId
              sessionId := sessionId
              state := "idle"
              availableTools := agentDefinition.tools
              executionHistory := [] }
          ({ st with
              sessions := updateA st.sessions sessionId (fun s =>
                { s with
                    activeAgents := s.activeAgents ++ [agentInstanceId]
                    agentContexts := s.agentContexts ++ [(agentInstanceId, agentInstance)] })
              nextId := st.nextId + 1 },
            .ok agentInstanceId)

def closeSession (st : MCPState) (sessionId : String) : MCPState × Except MCPError Unit :=
  match lookupA st.sessions sessionId with
  | none => (st, .ok ())
  | some _ =>
    ({ st with
        sessions := updateA st.sessions sessionId (fun s => { s with isActive := false })
        contexts := st.contexts.filter (fun c => c != sessionId) },
      .ok ())

/-! ### Intent analysis (`analyzeIntent`) -/

structure Intent where
  type : String
  confidence : ℚ
  entities : List String
  requiredCapabilities : List String
  complexity : String
deriving Repr, DecidableEq

def analyzeIntent (message : String) : Intent :=
  let base : Intent :=
    { type := "unknown"
      confidence := 0.5
      entities := []
      requiredCapabilities := []
      complexity := "medium" }
  let keywords := toLowerCase message
  let intent :=
    if includes keywords "search" || includes keywords "find" || includes keywords "look up" then
      { base with
          type := "information_retrieval"
          requiredCapabilities := ["web_search", "data_analysis"]
          confidence := 0.8 }
    else if includes keywords "analyze" || includes keywords "examine" || includes keywords "study" then
      { base with
          type := "analysis"
          requiredCapabilities := ["data_analysis", "pattern_recognition"]
          confidence := 0.8 }
    else if includes keywords "create" || includes keywords "generate" || includes keywords "make" then
      { base with
          type := "content_creation"
          requiredCapabilities := ["content_generation", "creative_writing"]
          confidence := 0.8 }
    else if includes keywords "solve" || includes keywords "calculate" || includes keywords "compute" then
      { base with
          type := "problem_solving"
          requiredCapabilities := ["calculation", "logical_reasoning"]
          confidence := 0.8 }
    else if includes keywords "explain" || includes keywords "teach" || includes keywords "how" then
      { base with
          type := "educational"
          requiredCapabilities := ["knowledge_synthesis", "explanation"]
          confidence := 0.7 }
    else base
  let complexity :=
    if message.length > 500 || includes keywords "complex" || includes keywords "detailed" then
      "high"
    else if message.length < 50 then "low"
    else intent.complexity
  { intent with complexity := complexity }

/-! ### Routing plans (`createRoutingPlan`) -/

structure StepDef where
  action : String
  agent : String
  tools : List String
deriving Repr, DecidableEq

structure Plan where
  intentType : String
  steps : List StepDef
  estimatedDuration : ℕ
  requiredAgents : List String
  requiredTools : List String
deriving Repr, DecidableEq

def createRoutingPlan (intent : Intent) : Plan :=
  let base : Plan :=
    { intentType := intent.type
      steps := []
      estimatedDuration := 0
      requiredAgents := []
      requiredTools := [] }
  let plan :=
    match intent.type with
    | "information_retrieval" =>
      { base with
          requiredAgents := ["research_agent"]
          requiredTools := ["web_search"]
          steps :=
            [ { action := "search_information", agent := "research_agent", tools := ["web_search"] },
              { action := "synthesize_results", agent := "analysis_agent", tools := ["content_generation"] } ] }
    | "analysis" =>
      { base with
          requiredAgents := ["analysis_agent"]
          requiredTools := ["file_analysis", "calculation"]
          steps :=
            [ { action := "analyze_data", agent := "analysis_agent", tools := ["file_analysis"] },
              { action := "generate_insights", agent := "analysis_agent", tools := ["calculation"] } ] }
    | "content_creation" =>
      { base with
          requiredAgents := ["creative_agent"]
          requiredTools := ["content_generation"]
          steps :=
            [ { action := "plan_content", agent := "creative_agent", tools := [] },
              { action := "generate_content", agent := "creative_agent", tools := ["content_generation"] } ] }
    | "problem_solving" =>
      { base with
          requiredAgents := ["problem_solver_agent"]
          requiredTools := ["calculation", "code_execution"]
          steps :=
            [ { action := "analyze_problem", agent := "problem_solver_agent", tools := [] },
              { action := "solve_problem", agent := "problem_solver_agent", tools := ["calculation", "code_execution"] } ] }
    | _ =>
      { base with
          requiredAgents := ["research_agent", "analysis_agent"]
          requiredTools := ["web_search", "content_generation"]
          steps :=
            [ { action := "gather_information", agent := "research_agent", tools := ["web_search"] },
              { action := "process_response", agent := "analysis_agent", tools := ["content_generation"] } ] }
  { plan with estimatedDuration := plan.steps.length * 5000 }

/-! ### Plan execution (`executePlan`, `executeStep`, `executeAgentAction`) -/

def performWebSearch (tools : List String) : String :=
  if tools.contains "web_search" then
    "Performed web search and found relevant information."
  else "Web search not available."

def performDataAnalysis (tools : List String) : String :=
  if tools.contains "file_analysis" then
    "Analyzed data and identified key patterns."
  else "Data analysis not available."

def performContentGeneration (tools : List String) : String :=
  if tools.contains "content_generation" then
    "Generated comprehensive content based on requirements."
  else "Content generation not available."

def performProblemSolving (tools : List String) : String :=
  if tools.contains "calculation" then
    "Solved the problem using mathematical analysis."
  else "Problem solving tools not available."

def executeAgentAction (agentInstance : AgentInstance) (action : String)
    (tools : List String) : ActionResult :=
  let data :=
    match action with
    | "search_information" => performWebSearch tools
    | "analyze_data" => performDataAnalysis tools
    | "generate_content" => performContentGeneration tools
    | "solve_problem" => performProblemSolving tools
    | _ => "Executed " ++ action ++ " with agent " ++ agentInstance.agentId
  { action := action
    agentId := agentInstance.agentId
    instanceId := agentInstance.instanceId
    data := data }

structure StepExecution where
  action : String
  agentId : String
  tools : List String
  status : String
  result : Option ActionResult
deriving Repr, DecidableEq

/-- One step: find the agent instance by template id (first match in
insertion order); a missing agent throws, a found agent runs the action and
appends the result to its execution history. -/
def executeStep (session : Session) (step : StepDef) :
    Session × Except String StepExecution :=
  match (session.agentContexts.map Prod.snd).find?
      (fun agent => agent.agentId == step.agent) with
  | none => (session, .error ("Agent " ++ step.agent ++ " not found in session"))
  | some agentInstance =>
    let result := executeAgentAction agentInstance step.action step.tools
    let session :=
      { session with
          agentContexts := updateA session.agentContexts agentInstance.instanceId
            (fun a => { a with executionHistory := a.executionHistory ++ [result] }) }
    (session,
      .ok { action := step.action
            agentId := step.agent
            tools := step.tools
            status := "completed"
            result := some result })

structure Execution where
  sessionId : String
  steps : List StepExecution
  results : List (Option ActionResult)
  status : String
  error : Option String
deriving Repr, DecidableEq

/-- The step loop of `executePlan`: successful step records are pushed onto
`execution.steps`; the first failing step stops the loop, marks the
execution `failed`, and propagates the error (the failing step's own record
is not pushed, matching the `throw` before the `push`). -/
def runSteps : Session → List StepDef → Execution → Session × Except (Execution × String) Execution
  | session, [], execution => (session, .ok execution)
  | session, step :: rest, execution =>
    match executeStep session step with
    | (session, .ok stepExecution) =>
      runSteps session rest
        { execution with
            steps := execution.steps ++ [stepExecution]
            results := execution.results ++ [stepExecution.result] }
    | (session, .error msg) =>
      (session,
        .error
          ({ execution with
              status := "failed"
              error := some msg },
            msg))

def mcpErrorMessage : MCPError → String
  | .invalidOrInactiveSession => "Invalid or inactive session"
  | .agentNotFound agentId => "Agent " ++ agentId ++ " not found"
  | .maxAgentsReached => "Maximum number of agents reached for this session"
  | .executionFailed msg => msg

/-- The ensure-agents loop at the top of `executePlan`: spawn every required
agent template that has no live instance in the session yet. -/
def ensureAgents : MCPState → String → List String → MCPState × Except MCPError Unit
  | st, _, [] => (st, .ok ())
  | st, sessionId, agentId :: rest =>
    match lookupA st.sessions sessionId with
    | none => (st, .error .invalidOrInactiveSession)
    | some session =>
      if session.activeAgents.any (fun instanceId =>
          match lookupA session.agentContexts instanceId with
          | some agent => agent.agentId == agentId
          | none => false) then
        ensureAgents st sessionId rest
      else
        match spawnAgent st sessionId agentId with
        | (st, .ok _) => ensureAgents st sessionId rest
        | (st, .error e) => (st, .error e)

def synthesizeResponse (results : List (Option ActionResult)) : String :=
  let body := String.join ((results.enum).map (fun p =>
    match p.2 with
    | some r =>
      if r.data ≠ "" then toString (p.1 + 1) ++ ". " ++ r.data ++ "\n" else ""
    | none => ""))
  "Based on my analysis:\n\n" ++ body
    ++ "\nThis response was generated using multiple AI agents working together through the Model Context Protocol."

/-- Embedding of `executePlan`: ensure required agents, run the steps sequentially, then
either synthesize the final response (status `completed`) or propagate the
first failure after marking the execution `failed`.  The failure value
carries the execution record as it stood when the error was thrown. -/
def executePlan (st : MCPState) (sessionId : String) (plan : Plan) :
    MCPState × Except (Execution × String) (Execution × String) :=
  let execution : Execution :=
    { sessionId := sessionId
      steps := []
      results := []
      status := "executing"
      error := none }
  match ensureAgents st sessionId plan.requiredAgents with
  | (st, .error e) =>
    (st,
      .error
        ({ execution with
            status := "failed"
            error := some (mcpErrorMessage e) },
          mcpErrorMessage e))
  | (st, .ok _) =>
    match lookupA st.sessions sessionId with
    | none =>
      (st,
        .error
          ({ execution with
              status := "failed"
              error := some (mcpErrorMessage .invalidOrInactiveSession) },
            mcpErrorMessage .invalidOrInactiveSession))
    | some session =>
      match runSteps session plan.steps execution with
      | (session, .ok execution) =>
        let execution := { execution with status := "completed" }
        let response := synthesizeResponse execution.results
        ({ st with sessions := updateA st.sessions sessionId (fun _ => session) },
          .ok (execution, response))
      | (session, .error (execution, msg)) =>
        ({ st with sessions := updateA st.sessions sessionId (fun _ => session) },
          .error (execution, msg))

/-! ### Message processing (`processMessage`) -/

def processMessage (st : MCPState) (sessionId message : String) :
    MCPState × Except MCPError (Execution × String) :=
  match lookupA st.sessions sessionId with
  | none => (st, .error .invalidOrInactiveSession)
  | some session =>
    if session.isActive = false then (st, .error .invalidOrInactiveSession)
    else
      let mcpMessage : MCPMessage := { content := message, sender := "user", type := "query" }
      let st1 :=
        { st with
            sessions := updateA st.sessions sessionId (fun s =>
              { s with messageHistory := s.messageHistory ++ [mcpMessage] }) }
      let intent := analyzeIntent message
      let plan := createRoutingPlan intent
      match executePlan st1 sessionId plan with
      | (st2, .ok res) => (st2, .ok res)
      | (st2, .error (_, msg)) => (st2, .error (.executionFailed msg))

/-! ### Default agent templates (`initializeProtocol`) -/

def createResearchAgent : AgentDefinition :=
  { name := "Research Agent"
    description := "Specialized in information gathering and research"
    capabilities := ["web_search", "data_collection", "source_verification"]
    tools := ["web_search", "file_analysis"] }

def createAnalysisAgent : AgentDefinition :=
  { name := "Analysis Agent"
    description := "Specialized in data analysis and pattern recognition"
    capabilities := ["data_analysis", "pattern_recognition", "insight_generation"]
    tools := ["file_analysis", "calculation"] }

def createCreativeAgent : AgentDefinition :=
  { name := "Creative Agent"
    description := "Specialized in content creation and creative tasks"
    capabilities := ["content_generation", "creative_writing", "ideation"]
    tools := ["content_generation"] }

def createProblemSolverAgent : AgentDefinition :=
  { name := "Problem Solver Agent"
    description := "Specialized in problem-solving and logical reasoning"
    capabilities := ["logical_reasoning", "problem_decomposition", "solution_synthesis"]
    tools := ["calculation", "code_execution"] }

def initialMCPState : MCPState :=
  { sessions := []
    agents :=
      [ ("research_agent", createResearchAgent),
        ("analysis_agent", createAnalysisAgent),
        ("creative_agent", createCreativeAgent),
        ("problem_solver_agent", createProblemSolverAgent) ]
    contexts := []
    nextId := 0 }

/-! ### Observation helpers on the protocol state -/

def historyOf (st : MCPState) (sessionId : String) : Option (List MCPMessage) :=
  (lookupA st.sessions sessionId).map Session.messageHistory

def activeOf (st : MCPState) (sessionId : String) : Option Bool :=
  (lookupA st.sessions sessionId).map Session.isActive

theorem map_lookupA_updateA {α β : Type} (l : List (String × α)) (k sid : String)
    (f : α → α) (g : α → β) (hf : ∀ a, g (f a) = g a) :
    (lookupA (updateA l k f) sid).map g = (lookupA l sid).map g := by
  rw [lookupA_updateA]
  by_cases h : k = sid
  · cases hv : lookupA l sid <;> simp [h, hv, hf]
  · simp [h]

/-! ### The intent classifier as the specification words it -/

/-- The intent classification as the specification states it: an ordered
list of keyword-set checks — information_retrieval, analysis,
content_creation, problem_solving, educational — where the first match wins
with its fixed confidence (0.8 for the first four checks, 0.7 for
educational) and no match yields type "unknown" at confidence 0.5. -/
def classifySpec (message : String) : String × ℚ :=
  let keywords := toLowerCase message
  if includes keywords "search" || includes keywords "find" || includes keywords "look up" then
    ("information_retrieval", 0.8)
  else if includes keywords "analyze" || includes keywords "examine" || includes keywords "study" then
    ("analysis", 0.8)
  else if includes keywords "create" || includes keywords "generate" || includes keywords "make" then
    ("content_creation", 0.8)
  else if includes keywords "solve" || includes keywords "calculate" || includes keywords "compute" then
    ("problem_solving", 0.8)
  else if includes keywords "explain" || includes keywords "teach" || includes keywords "how" then
    ("educational", 0.7)
  else ("unknown", 0.5)

/-- C7: the intent classifier is a pure function of the message text that
returns the first keyword-set match of the ordered checks with its fixed
confidence, "unknown" at 0.5 otherwise; in particular
`classify("search for thermodynamics papers")` is `information_retrieval`
at confidence 0.8. -/
theorem analyzeIntent_first_match_with_fixed_confidence :
    (∀ message : String,
        ((analyzeIntent message).type, (analyzeIntent message).confidence)
          = classifySpec message)
    ∧ (analyzeIntent "search for thermodynamics papers").type = "information_retrieval"
    ∧ (analyzeIntent "search for thermodynamics papers").confidence = 0.8 := by
  refine ⟨?_, by rfl, by rfl⟩
  intro message
  unfold analyzeIntent classifySpec
  dsimp only
  split_ifs <;> rfl

/-! ### Capacity check of `spawnAgent` (C6) -/

/-- C6: spawning into a session already holding `maxAgents = 5` agents with
five active agents fails with the capacity error, raised before any state
mutation, so the protocol state — in particular the session's agent set —
is unchanged. -/
theorem spawnAgent_at_capacity_fails_without_mutation
    (st : MCPState) (sessionId agentId : String)
    (session : Session) (agentDefinition : AgentDefinition)
    (hs : lookupA st.sessions sessionId = some session)
    (hact : session.isActive = true)
    (ha : lookupA st.agents agentId = some agentDefinition)
    (hmax : session.maxAgents = 5)
    (hfull : session.activeAgents.length = 5) :
    spawnAgent st sessionId agentId = (st, .error .maxAgentsReached)
    ∧ ((lookupA (spawnAgent st sessionId agentId).1.sessions sessionId).map
        Session.activeAgents).map List.length = some 5 := by
  have hmain : spawnAgent st sessionId agentId = (st, .error .maxAgentsReached) := by
    unfold spawnAgent
    simp [hs, hact, ha, hmax, hfull]
  refine ⟨hmain, ?_⟩
  rw [hmain]
  simp [hs, hfull]

/-- A session at its agent capacity, used to instantiate the capacity
theorem concretely. -/
def fullSession : Session :=
  { sessionId := "s1"
    userId := "u1"
    maxAgents := 5
    maxTools := 10
    activeAgents := ["a-1", "a-2", "a-3", "a-4", "a-5"]
    agentContexts := []
    messageHistory := []
    isActive := true }

def fullState : MCPState :=
  { sessions := [("s1", fullSession)]
    agents := initialMCPState.agents
    contexts := ["s1"]
    nextId := 6 }

theorem spawnAgent_at_capacity_fails_without_mutation_witness :
    spawnAgent fullState "s1" "research_agent" = (fullState, .error .maxAgentsReached)
    ∧ ((lookupA (spawnAgent fullState "s1" "research_agent").1.sessions "s1").map
        Session.activeAgents).map List.length = some 5 :=
  spawnAgent_at_capacity_fails_without_mutation fullState "s1" "research_agent"
    fullSession createResearchAgent (by decide) rfl (by decide) rfl rfl

/-! ### Closed sessions (C8, C9) -/

/-- Immediately after `closeSession(sessionId)`, `spawnAgent` and
`processMessage` against that session id fail with the session-inactive
error (the same error is raised whether the session was present — and is
now inactive — or never existed). -/
theorem spawn_process_fail_right_after_close
    (st : MCPState) (sessionId agentId message : String) :
    (spawnAgent (closeSession st sessionId).1 sessionId agentId).2
        = .error .invalidOrInactiveSession
    ∧ (processMessage (closeSession st sessionId).1 sessionId message).2
        = .error .invalidOrInactiveSession := by
  unfold closeSession
  cases hl : lookupA st.sessions sessionId with
  | none =>
    simp only [hl]
    unfold spawnAgent processMessage
    simp [hl]
  | some session =>
    simp only [hl]
    have hlook : lookupA
        (updateA st.sessions sessionId (fun s => { s with isActive := false })) sessionId
        = some { session with isActive := false } := by
      rw [lookupA_updateA]
      simp [hl]
    constructor
    · unfold spawnAgent
      simp [hlook]
    · unfold processMessage
      simp [hlook]

/-- C9: `closeSession` is idempotent — it succeeds on an existing session,
succeeds again on the second call, leaves the session inactive after each
call, and after each call the session's context has been released from the
context store. -/
theorem closeSession_idempotent (st : MCPState) (sessionId : String)
    (h : (lookupA st.sessions sessionId).isSome = true) :
    (closeSession st sessionId).2 = .ok ()
    ∧ (closeSession (closeSession st sessionId).1 sessionId).2 = .ok ()
    ∧ activeOf (closeSession st sessionId).1 sessionId = some false
    ∧ activeOf (closeSession (closeSession st sessionId).1 sessionId).1 sessionId = some false
    ∧ sessionId ∉ (closeSession st sessionId).1.contexts
    ∧ sessionId ∉ (closeSession (closeSession st sessionId).1 sessionId).1.contexts := by
  obtain ⟨session, hl⟩ := Option.isSome_iff_exists.mp h
  have hstep : closeSession st sessionId
      = ({ st with
            sessions := updateA st.sessions sessionId (fun s => { s with isActive := false })
            contexts := st.contexts.filter (fun c => c != sessionId) },
          .ok ()) := by
    simp [closeSession, hl]
  have hlook : lookupA
      (updateA st.sessions sessionId (fun s => { s with isActive := false })) sessionId
      = some { session with isActive := false } := by
    rw [lookupA_updateA]
    simp [hl]
  have hstep2 : closeSession (closeSession st sessionId).1 sessionId
      = ({ (closeSession st sessionId).1 with
            sessions := updateA (closeSession st sessionId).1.sessions sessionId
              (fun s => { s with isActive := false })
            contexts := (closeSession st sessionId).1.contexts.filter (fun c => c != sessionId) },
          .ok ()) := by
    rw [hstep]
    simp [closeSession, hlook]
  have hmem : sessionId ∉ st.contexts.filter (fun c => c != sessionId) := by
    intro hmem
    have := (List.mem_filter.mp hmem).2
    simp at this
  refine ⟨by rw [hstep], by rw [hstep2], ?_, ?_, ?_, ?_⟩
  · rw [hstep]
    unfold activeOf
    simp [hlook]
  · rw [hstep2, hstep]
    unfold activeOf
    simp only []
    rw [lookupA_updateA]
    simp [hlook]
  · rw [hstep]
    exact hmem
  · rw [hstep2, hstep]
    intro hmem2
    have := (List.mem_filter.mp hmem2).2
    simp at this

theorem closeSession_idempotent_witness :
    (closeSession fullState "s1").2 = .ok ()
    ∧ (closeSession (closeSession fullState "s1").1 "s1").2 = .ok ()
    ∧ activeOf (closeSession fullState "s1").1 "s1" = some false
    ∧ activeOf (closeSession (closeSession fullState "s1").1 "s1").1 "s1" = some false
    ∧ "s1" ∉ (closeSession fullState "s1").1.contexts
    ∧ "s1" ∉ (closeSession (closeSession fullState "s1").1 "s1").1.contexts :=
  closeSession_idempotent fullState "s1" (by decide)

/-! ### Plan execution never touches message histories or activity flags -/

theorem spawnAgent_preserves_history_active (st : MCPState) (sessionId agentId sid : String) :
    historyOf (spawnAgent st sessionId agentId).1 sid = historyOf st sid
    ∧ activeOf (spawnAgent st sessionId agentId).1 sid = activeOf st sid := by
  unfold spawnAgent historyOf activeOf
  cases hl : lookupA st.sessions sessionId with
  | none => simp
  | some session =>
    by_cases hact : session.isActive = false
    · simp [hl, hact]
    · cases ha : lookupA st.agents agentId with
      | none => simp [hl, hact, ha]
      | some agentDefinition =>
        by_cases hcap : session.activeAgents.length ≥ session.maxAgents
        · simp [hl, hact, ha, hcap]
        · simp only [hl, hact, ha, hcap, if_false, if_true, reduceCtorEq]
          constructor
          · exact map_lookupA_updateA _ _ _ _ _ (fun a => rfl)
          · exact map_lookupA_updateA _ _ _ _ _ (fun a => rfl)

theorem ensureAgents_preserves_history_active (agentIds : List String)
    (st : MCPState) (sessionId sid : String) :
    historyOf (ensureAgents st sessionId agentIds).1 sid = historyOf st sid
    ∧ activeOf (ensureAgents st sessionId agentIds).1 sid = activeOf st sid := by
  induction agentIds generalizing st with
  | nil => exact ⟨rfl, rfl⟩
  | cons agentId rest ih =>
    unfold ensureAgents
    cases hl : lookupA st.sessions sessionId with
    | none => simp
    | some session =>
      simp only [hl]
      split
      · exact ih st
      · rcases hsp : spawnAgent st sessionId agentId with ⟨st1, res⟩
        have hpres := spawnAgent_preserves_history_active st sessionId agentId sid
        rw [hsp] at hpres
        cases res with
        | ok instanceId =>
          simp only [hsp]
          exact ⟨((ih st1).1).trans hpres.1, ((ih st1).2).trans hpres.2⟩
        | error e =>
          simp only [hsp]
          exact hpres

theorem executeStep_preserves_history_active (session : Session) (step : StepDef) :
    (executeStep session step).1.messageHistory = session.messageHistory
    ∧ (executeStep session step).1.isActive = session.isActive := by
  unfold executeStep
  cases h : (session.agentContexts.map Prod.snd).find?
      (fun agent => agent.agentId == step.agent) with
  | none => simp [h]
  | some agentInstance => simp [h]

theorem runSteps_preserves_history_active (steps : List StepDef)
    (session : Session) (execution : Execution) :
    (runSteps session steps execution).1.messageHistory = session.messageHistory
    ∧ (runSteps session steps execution).1.isActive = session.isActive := by
  induction steps generalizing session execution with
  | nil => exact ⟨rfl, rfl⟩
  | cons step rest ih =>
    unfold runSteps
    rcases hst : executeStep session step with ⟨session1, res⟩
    have hpres := executeStep_preserves_history_active session step
    rw [hst] at hpres
    cases res with
    | ok stepExecution =>
      simp only [hst]
      exact ⟨((ih session1 _).1).trans hpres.1, ((ih session1 _).2).trans hpres.2⟩
    | error msg =>
      simp only [hst]
      exact hpres

theorem executePlan_preserves_history_active (st : MCPState) (sessionId : String)
    (plan : Plan) (sid : String) :
    historyOf (executePlan st sessionId plan).1 sid = historyOf st sid
    ∧ activeOf (executePlan st sessionId plan).1 sid = activeOf st sid := by
  unfold executePlan
  rcases he : ensureAgents st sessionId plan.requiredAgents with ⟨st1, res⟩
  have hpres := ensureAgents_preserves_history_active plan.requiredAgents st sessionId sid
  rw [he] at hpres
  cases res with
  | error e =>
    simp only [he]
    exact hpres
  | ok u =>
    simp only [he]
    cases hl : lookupA st1.sessions sessionId with
    | none =>
      simp only [hl]
      exact hpres
    | some session =>
      simp only [hl]
      have hwrite : ∀ session2 : Session,
          session2.messageHistory = session.messageHistory →
          session2.isActive = session.isActive →
          historyOf { st1 with
              sessions := updateA st1.sessions sessionId (fun _ => session2) } sid
            = historyOf st1 sid
          ∧ activeOf { st1 with
              sessions := updateA st1.sessions sessionId (fun _ => session2) } sid
            = activeOf st1 sid := by
        intro session2 hmh hia
        unfold historyOf activeOf
        simp only []
        rw [lookupA_updateA]
        by_cases hy : sessionId = sid
        · subst hy
          simp [hl, hmh, hia]
        · simp [hy]
      rcases hr : runSteps session plan.steps _ with ⟨session2, res2⟩
      have hrp := runSteps_preserves_history_active plan.steps session
        { sessionId := sessionId, steps := [], results := [], status := "executing", error := none }
      rw [hr] at hrp
      cases res2 with
      | ok executionDone =>
        simp only [hr]
        exact ⟨((hwrite session2 hrp.1 hrp.2).1).trans hpres.1,
               ((hwrite session2 hrp.1 hrp.2).2).trans hpres.2⟩
      | error p =>
        simp only [hr]
        exact ⟨((hwrite session2 hrp.1 hrp.2).1).trans hpres.1,
               ((hwrite session2 hrp.1 hrp.2).2).trans hpres.2⟩

/-- Running `processMessage` on an active session pushes exactly one entry onto the
session's message history (even when the executed plan fails) and leaves the
session active; no part of plan execution ever removes history entries. -/
theorem processMessage_appends (st : MCPState) (sessionId message : String)
    (session : Session)
    (hs : lookupA st.sessions sessionId = some session)
    (hact : session.isActive = true) :
    historyOf (processMessage st sessionId message).1 sessionId
      = some (session.messageHistory
          ++ [{ content := message, sender := "user", type := "query" }])
    ∧ activeOf (processMessage st sessionId message).1 sessionId = some true := by
  unfold processMessage
  simp only [hs, hact]
  have h1 : historyOf { st with
      sessions := updateA st.sessions sessionId (fun s =>
        { s with messageHistory := s.messageHistory
            ++ [{ content := message, sender := "user", type := "query" }] }) } sessionId
      = some (session.messageHistory
          ++ [{ content := message, sender := "user", type := "query" }]) := by
    unfold historyOf
    simp only []
    rw [lookupA_updateA]
    simp [hs]
  have h2 : activeOf { st with
      sessions := updateA st.sessions sessionId (fun s =>
        { s with messageHistory := s.messageHistory
            ++ [{ content := message, sender := "user", type := "query" }] }) } sessionId
      = some true := by
    unfold activeOf
    simp only []
    rw [lookupA_updateA]
    simp [hs, hact]
  rcases hep : executePlan { st with
      sessions := updateA st.sessions sessionId (fun s =>
        { s with messageHistory := s.messageHistory
            ++ [{ content := message, sender := "user", type := "query" }] }) } sessionId
      (createRoutingPlan (analyzeIntent message)) with ⟨st2, res⟩
  have hp := executePlan_preserves_history_active { st with
      sessions := updateA st.sessions sessionId (fun s =>
        { s with messageHistory := s.messageHistory
            ++ [{ content := message, sender := "user", type := "query" }] }) } sessionId
    (createRoutingPlan (analyzeIntent message)) sessionId
  rw [hep] at hp
  cases res with
  | ok r =>
    simp only [hep]
    exact ⟨hp.1.trans h1, hp.2.trans h2⟩
  | error p =>
    rcases p with ⟨ex, msg⟩
    simp only [hep]
    exact ⟨hp.1.trans h1, hp.2.trans h2⟩

/-- C5 amended: the message history is not bounded — every `processMessage`
on an active session appends exactly one entry to that session's message
history and never evicts any entry, so the history length equals the number
of processed messages and grows without bound. -/
theorem message_history_grows_without_eviction (st : MCPState)
    (sessionId message : String) (session : Session)
    (hs : lookupA st.sessions sessionId = some session)
    (hact : session.isActive = true) :
    historyOf (processMessage st sessionId message).1 sessionId
      = some (session.messageHistory
          ++ [{ content := message, sender := "user", type := "query" }])
    ∧ (historyOf (processMessage st sessionId message).1 sessionId).map List.length
      = some (session.messageHistory.length + 1) := by
  obtain ⟨h1, _⟩ := processMessage_appends st sessionId message session hs hact
  refine ⟨h1, ?_⟩
  rw [h1]
  simp

/-- A fresh protocol state holding one just-created session (`session-0`). -/
def seedState : MCPState := (createSession initialMCPState "user-1" 5 10).1

/-- One message-processing round against the seeded session. -/
def pump (st : MCPState) : MCPState := (processMessage st "session-0" "hello").1

theorem pump_history_growth (n : ℕ) :
    ∃ session : Session,
      lookupA (pump^[n] seedState).sessions "session-0" = some session
      ∧ session.isActive = true
      ∧ session.messageHistory.length = n := by
  induction n with
  | zero =>
    exact ⟨{ sessionId := "session-0", userId := "user-1", maxAgents := 5, maxTools := 10,
             activeAgents := [], agentContexts := [], messageHistory := [], isActive := true },
           by decide, rfl, rfl⟩
  | succ n ih =>
    obtain ⟨session, hl, hact, hlen⟩ := ih
    rw [Function.iterate_succ_apply']
    obtain ⟨hh, ha⟩ :=
      processMessage_appends (pump^[n] seedState) "session-0" "hello" session hl hact
    unfold historyOf at hh
    unfold activeOf at ha
    obtain ⟨s1, hls1, hmh⟩ := Option.map_eq_some'.mp hh
    obtain ⟨s2, hls2, hia⟩ := Option.map_eq_some'.mp ha
    rw [hls1] at hls2
    injection hls2 with hseq
    refine ⟨s1, hls1, ?_, ?_⟩
    · rw [hseq]
      exact hia
    · rw [hmh]
      simp [hlen]

/-- C5 counterexample: no fixed cap bounds the session message history —
for every candidate cap there is a run (cap + 1 processed messages on the
seeded session) whose history length exceeds it, because `processMessage`
appends one entry per call and nothing ever evicts. -/
theorem message_history_has_no_cap_cex :
    ¬ ∃ cap : ℕ, ∀ n : ℕ,
        ((historyOf (pump^[n] seedState) "session-0").map List.length).getD 0 ≤ cap := by
  rintro ⟨cap, hcap⟩
  obtain ⟨session, hl, _, hlen⟩ := pump_history_growth (cap + 1)
  have hval : ((historyOf (pump^[cap + 1] seedState) "session-0").map List.length).getD 0
      = cap + 1 := by
    unfold historyOf
    rw [hl]
    simp [hlen]
  have h2 := hcap (cap + 1)
  rw [hval] at h2
  omega

theorem message_history_grows_without_eviction_witness :
    historyOf (processMessage seedState "session-0" "hello").1 "session-0"
      = some [{ content := "hello", sender := "user", type := "query" }]
    ∧ (historyOf (processMessage seedState "session-0" "hello").1 "session-0").map List.length
      = some 1 := by
  have h := message_history_grows_without_eviction seedState "session-0" "hello"
    { sessionId := "session-0", userId := "user-1", maxAgents := 5, maxTools := 10,
      activeAgents := [], agentContexts := [], messageHistory := [], isActive := true }
    (by decide) rfl
  simpa using h

/-! ### Abort-on-first-failure behaviour of `executePlan` (C4) -/

theorem agentIds_updateA (l : List (String × AgentInstance)) (k : String)
    (f : AgentInstance → AgentInstance) (hf : ∀ a, (f a).agentId = a.agentId) :
    (updateA l k f).map (fun p => p.2.agentId) = l.map (fun p => p.2.agentId) := by
  induction l with
  | nil => rfl
  | cons p rest ih =>
    obtain ⟨key, a⟩ := p
    by_cases hk : key = k <;> simp [updateA, hk, hf, ih]

/-- C4 amended: when the second step of a three-step plan is the first to
fail (its agent has no live instance while the first step's agent does, and
the plan requires no fresh agents), `executePlan` propagates an error whose
execution record has status `failed` and whose `steps` list holds exactly
one entry — the completed first step; the failing step's record is not
appended and the third step is never attempted. -/
theorem executePlan_aborts_on_first_step_failure
    (st : MCPState) (sessionId : String) (session : Session) (plan : Plan)
    (s1 s2 s3 : StepDef)
    (hsteps : plan.steps = [s1, s2, s3])
    (hreq : plan.requiredAgents = [])
    (hs : lookupA st.sessions sessionId = some session)
    (h1 : ∃ p ∈ session.agentContexts, p.2.agentId = s1.agent)
    (h2 : ∀ p ∈ session.agentContexts, ¬ p.2.agentId = s2.agent) :
    ∃ (ex : Execution) (msg : String),
      (executePlan st sessionId plan).2 = .error (ex, msg)
      ∧ ex.status = "failed"
      ∧ ex.steps.length = 1
      ∧ ex.steps.map StepExecution.action = [s1.action] := by
  have hsome : ((session.agentContexts.map Prod.snd).find?
      (fun agent => agent.agentId == s1.agent)).isSome = true := by
    rw [List.find?_isSome]
    obtain ⟨p, hp, hpa⟩ := h1
    exact ⟨p.2, List.mem_map_of_mem _ hp, by simp [hpa]⟩
  obtain ⟨inst, hfind⟩ := Option.isSome_iff_exists.mp hsome
  have hstep1 : executeStep session s1
      = ({ session with
            agentContexts :=
              updateA session.agentContexts inst.instanceId (fun a =>
                { a with
                    executionHistory :=
                      a.executionHistory ++ [executeAgentAction inst s1.action s1.tools] }) },
         .ok { action := s1.action, agentId := s1.agent, tools := s1.tools,
               status := "completed",
               result := some (executeAgentAction inst s1.action s1.tools) }) := by
    unfold executeStep
    rw [hfind]
  have hnone : (((updateA session.agentContexts inst.instanceId (fun a =>
      { a with
          executionHistory :=
            a.executionHistory ++ [executeAgentAction inst s1.action s1.tools] })).map
        Prod.snd).find? (fun agent => agent.agentId == s2.agent)) = none := by
    rw [List.find?_eq_none]
    intro x hx
    have hxid : x.agentId ∈ (updateA session.agentContexts inst.instanceId (fun a =>
        { a with
            executionHistory :=
              a.executionHistory ++ [executeAgentAction inst s1.action s1.tools] })).map
          (fun p => p.2.agentId) := by
      obtain ⟨p, hp, hpe⟩ := List.mem_map.mp hx
      exact List.mem_map.mpr ⟨p, hp, by rw [hpe]⟩
    rw [agentIds_updateA session.agentContexts inst.instanceId
      (fun a =>
        { a with
            executionHistory :=
              a.executionHistory ++ [executeAgentAction inst s1.action s1.tools] })
      (fun a => rfl)] at hxid
    obtain ⟨p, hp, hpe⟩ := List.mem_map.mp hxid
    simp only [beq_iff_eq]
    intro hxe
    exact h2 p hp (by rw [hpe, hxe])
  have hstep2 : executeStep
      { session with
          agentContexts :=
            updateA session.agentContexts inst.instanceId (fun a =>
              { a with
                  executionHistory :=
                    a.executionHistory ++ [executeAgentAction inst s1.action s1.tools] }) } s2
      = ({ session with
            agentContexts :=
              updateA session.agentContexts inst.instanceId (fun a =>
                { a with
                    executionHistory :=
                      a.executionHistory ++ [executeAgentAction inst s1.action s1.tools] }) },
         .error ("Agent " ++ s2.agent ++ " not found in session")) := by
    unfold executeStep
    rw [hnone]
  unfold executePlan
  rw [hreq]
  simp only [ensureAgents, hs, hsteps, runSteps, hstep1, hstep2]
  exact ⟨_, _, rfl, rfl, rfl, rfl⟩

/-- One live research-agent instance, used in the concrete three-step plan
scenario. -/
def threeStepInstance : AgentInstance :=
  { instanceId := "research_agent-0"
    agentId := "research_agent"
    sessionId := "s1"
    state := "idle"
    availableTools := ["web_search"]
    executionHistory := [] }

def threeStepSession : Session :=
  { sessionId := "s1"
    userId := "u1"
    maxAgents := 5
    maxTools := 10
    activeAgents := ["research_agent-0"]
    agentContexts := [("research_agent-0", threeStepInstance)]
    messageHistory := []
    isActive := true }

def threeStepState : MCPState :=
  { sessions := [("s1", threeStepSession)]
    agents := initialMCPState.agents
    contexts := ["s1"]
    nextId := 1 }

/-- A three-step plan whose second step targets an agent template with no
live instance (`ghost_agent`), so its second step fails. -/
def threeStepPlan : Plan :=
  { intentType := "custom"
    steps :=
      [ { action := "a1", agent := "research_agent", tools := [] },
        { action := "a2", agent := "ghost_agent", tools := [] },
        { action := "a3", agent := "research_agent", tools := [] } ]
    estimatedDuration := 0
    requiredAgents := []
    requiredTools := [] }

/-- The execution record carried by the failure that `executePlan` raises on
the concrete three-step scenario. -/
def threeStepFailureRecord : Execution :=
  { sessionId := "s1"
    steps := [ { action := "a1", agentId := "research_agent", tools := [],
                 status := "completed",
                 result := some { action := "a1", agentId := "research_agent",
                                  instanceId := "research_agent-0",
                                  data := "Executed a1 with agent research_agent" } } ]
    results := [some { action := "a1", agentId := "research_agent",
                       instanceId := "research_agent-0",
                       data := "Executed a1 with agent research_agent" }]
    status := "failed"
    error := some "Agent ghost_agent not found in session" }

/-- C4 counterexample: on a three-step plan whose second step fails, the
execution record propagated by `executePlan` has status `failed` but its
`steps` list has length 1, not 2 — only the completed first step is
recorded, because the failure is thrown before the failing step's record is
pushed. -/
theorem executePlan_failed_steps_length_cex :
    (executePlan threeStepState "s1" threeStepPlan).2
      = .error (threeStepFailureRecord, "Agent ghost_agent not found in session")
    ∧ threeStepFailureRecord.status = "failed"
    ∧ threeStepFailureRecord.steps.length = 1
    ∧ ¬ threeStepFailureRecord.steps.length = 2 := by
  refine ⟨by rfl, rfl, rfl, by decide⟩

theorem executePlan_aborts_on_first_step_failure_witness :
    ∃ (ex : Execution) (msg : String),
      (executePlan threeStepState "s1" threeStepPlan).2 = .error (ex, msg)
      ∧ ex.status = "failed"
      ∧ ex.steps.length = 1
      ∧ ex.steps.map StepExecution.action = ["a1"] :=
  executePlan_aborts_on_first_step_failure threeStepState "s1" threeStepSession threeStepPlan
    { action := "a1", agent := "research_agent", tools := [] }
    { action := "a2", agent := "ghost_agent", tools := [] }
    { action := "a3", agent := "research_agent", tools := [] }
    rfl rfl (by decide) (by decide) (by decide)

/-! ### Closed sessions stay closed under every subsequent operation (C8) -/

theorem lookupA_append_left {α : Type} (l l2 : List (String × α)) (key : String) (v : α)
    (h : lookupA l key = some v) : lookupA (l ++ l2) key = some v := by
  induction l with
  | nil => simp [lookupA] at h
  | cons p rest ih =>
    obtain ⟨k, w⟩ := p
    by_cases hk : k = key
    · simpa [lookupA, hk] using h
    · rw [lookupA, if_neg hk] at h
      simpa [lookupA, hk] using ih h

/-- Running `processMessage` never changes any session's activity flag. -/
theorem processMessage_preserves_active (st : MCPState) (sessionId message sid : String) :
    activeOf (processMessage st sessionId message).1 sid = activeOf st sid := by
  unfold processMessage
  cases hl : lookupA st.sessions sessionId with
  | none => simp
  | some session =>
    simp only [hl]
    by_cases hact : session.isActive = false
    · simp [hact]
    · simp only [hact, if_false, reduceIte]
      have h2 : activeOf { st with
          sessions := updateA st.sessions sessionId (fun s =>
            { s with messageHistory := s.messageHistory
                ++ [{ content := message, sender := "user", type := "query" }] }) } sid
          = activeOf st sid := by
        unfold activeOf
        simp only []
        exact map_lookupA_updateA _ _ _ _ _ (fun a => rfl)
      rcases hep : executePlan { st with
          sessions := updateA st.sessions sessionId (fun s =>
            { s with messageHistory := s.messageHistory
                ++ [{ content := message, sender := "user", type := "query" }] }) } sessionId
          (createRoutingPlan (analyzeIntent message)) with ⟨st2, res⟩
      have hp := (executePlan_preserves_history_active { st with
          sessions := updateA st.sessions sessionId (fun s =>
            { s with messageHistory := s.messageHistory
                ++ [{ content := message, sender := "user", type := "query" }] }) } sessionId
          (createRoutingPlan (analyzeIntent message)) sid).2
      rw [hep] at hp
      cases res with
      | ok r =>
        simp only [hep]
        exact hp.trans h2
      | error p =>
        rcases p with ⟨ex, msg⟩
        simp only [hep]
        exact hp.trans h2

/-- The state-changing operations of the protocol's exposed API. -/
inductive MCPOp where
  | spawn (sessionId agentId : String)
  | close (sessionId : String)
  | process (sessionId message : String)
  | create (userId : String) (maxAgents maxTools : ℕ)
  | register (agentId : String) (d : AgentDefinition)

def applyOp (st : MCPState) : MCPOp → MCPState
  | .spawn sessionId agentId => (spawnAgent st sessionId agentId).1
  | .close sessionId => (closeSession st sessionId).1
  | .process sessionId message => (processMessage st sessionId message).1
  | .create userId maxAgents maxTools => (createSession st userId maxAgents maxTools).1
  | .register agentId d => registerAgent st agentId d

def applyOps (st : MCPState) (ops : List MCPOp) : MCPState := ops.foldl applyOp st

/-- Once a session is inactive, no operation of the API reactivates it. -/
theorem applyOp_preserves_inactive (st : MCPState) (sid : String) (op : MCPOp)
    (h : activeOf st sid = some false) : activeOf (applyOp st op) sid = some false := by
  cases op with
  | spawn sessionId agentId =>
    rw [applyOp, (spawnAgent_preserves_history_active st sessionId agentId sid).2]
    exact h
  | close sessionId =>
    rw [applyOp]
    unfold closeSession
    cases hl : lookupA st.sessions sessionId with
    | none => simpa using h
    | some session =>
      simp only [hl]
      unfold activeOf at h ⊢
      simp only []
      rw [lookupA_updateA]
      by_cases hy : sessionId = sid
      · subst hy
        obtain ⟨s, hls, hia⟩ := Option.map_eq_some'.mp h
        rw [hls]
        simp
      · simpa [hy] using h
  | process sessionId message =>
    rw [applyOp, processMessage_preserves_active]
    exact h
  | create userId maxAgents maxTools =>
    rw [applyOp]
    unfold activeOf at h
    obtain ⟨s, hls, hia⟩ := Option.map_eq_some'.mp h
    unfold createSession activeOf
    simp only []
    rw [lookupA_append_left _ _ _ _ hls]
    simp [hia]
  | register agentId d =>
    rw [applyOp]
    unfold registerAgent activeOf
    exact h

theorem applyOps_preserves_inactive (ops : List MCPOp) (st : MCPState) (sid : String)
    (h : activeOf st sid = some false) : activeOf (applyOps st ops) sid = some false := by
  induction ops generalizing st with
  | nil => exact h
  | cons op rest ih => exact ih (applyOp st op) (applyOp_preserves_inactive st sid op h)

theorem spawnAgent_fails_on_inactive (st : MCPState) (sessionId agentId : String)
    (h : activeOf st sessionId = some false) :
    (spawnAgent st sessionId agentId).2 = .error .invalidOrInactiveSession := by
  obtain ⟨s, hls, hia⟩ := Option.map_eq_some'.mp h
  unfold spawnAgent
  simp [hls, hia]

theorem processMessage_fails_on_inactive (st : MCPState) (sessionId message : String)
    (h : activeOf st sessionId = some false) :
    (processMessage st sessionId message).2 = .error .invalidOrInactiveSession := by
  obtain ⟨s, hls, hia⟩ := Option.map_eq_some'.mp h
  unfold processMessage
  simp [hls, hia]

theorem closeSession_deactivates (st : MCPState) (sessionId : String)
    (h : (lookupA st.sessions sessionId).isSome = true) :
    activeOf (closeSession st sessionId).1 sessionId = some false := by
  obtain ⟨session, hl⟩ := Option.isSome_iff_exists.mp h
  unfold closeSession
  simp only [hl]
  unfold activeOf
  simp only []
  rw [lookupA_updateA]
  simp [hl]

/-- C8: after `closeSession(sessionId)` returns, every subsequent
`spawnAgent` or `processMessage` call against that session id fails with
the session-inactive error, no matter which other API operations (spawns,
closes, message processing, session creation, agent registration) run in
between — closing is permanent for that session id. -/
theorem closed_session_rejects_further_operations
    (st : MCPState) (sessionId agentId message : String) (ops : List MCPOp)
    (h : (lookupA st.sessions sessionId).isSome = true) :
    (spawnAgent (applyOps (closeSession st sessionId).1 ops) sessionId agentId).2
        = .error .invalidOrInactiveSession
    ∧ (processMessage (applyOps (closeSession st sessionId).1 ops) sessionId message).2
        = .error .invalidOrInactiveSession := by
  have hinact : activeOf (applyOps (closeSession st sessionId).1 ops) sessionId = some false :=
    applyOps_preserves_inactive ops _ sessionId (closeSession_deactivates st sessionId h)
  exact ⟨spawnAgent_fails_on_inactive _ sessionId agentId hinact,
         processMessage_fails_on_inactive _ sessionId message hinact⟩

theorem closed_session_rejects_further_operations_witness :
    (spawnAgent (applyOps (closeSession threeStepState "s1").1
        [.create "u2" 5 10, .process "s1" "hi", .spawn "s1" "research_agent"])
        "s1" "research_agent").2 = .error .invalidOrInactiveSession
    ∧ (processMessage (applyOps (closeSession threeStepState "s1").1
        [.create "u2" 5 10, .process "s1" "hi", .spawn "s1" "research_agent"])
        "s1" "hello").2 = .error .invalidOrInactiveSession :=
  closed_session_rejects_further_operations threeStepState "s1" "research_agent" "hello"
    [.create "u2" 5 10, .process "s1" "hi", .spawn "s1" "research_agent"] (by decide)

end T4
